import Mathlib

/-!
Verification development for the YOLO detection-head layer
(`src/models/yolo_layer.py` of Complex-YOLOv4-Pytorch).

The layer is shallowly embedded over ℚ.  Tensors are total functions from
integer indices to rationals (PyTorch raises on out-of-range indices; the
separate bounds claims settle in-rangeness, so out-of-range lookups of the
total functions are never relied upon).  The transcendental primitives
(sigmoid, exp, log) and the external rotated-polygon IoU collaborators
(`get_polygons_fix_xy` composed with `.area`, `iou_rotated_boxes_vs_anchors`,
`iou_pred_vs_target_boxes`) are out-of-scope pure functions per the spec and
are abstracted as parameters bundled in `Prims`; polygons are represented by
the numeric box data they are built from (the builder with its fixed
reference offset 100 is a pure function of that data).  The undefined result
of a mean over an empty selection (NaN in PyTorch) is modelled by `Option`:
`none` stands for the undefined/NaN value.
-/

abbrev Q := ℚ

/-- Index into a rank-4 tensor: (batch, anchor, row, col). -/
abbrev Idx4 := ℤ × ℤ × ℤ × ℤ

/-- Box data handed to the polygon builder: (w, h, im, re). -/
abbrev Box4 := Q × Q × Q × Q

/-- Box data of a decoded or ground-truth box: (x, y, w, h, im, re). -/
abbrev Box6 := Q × Q × Q × Q × Q × Q

/-- Truncation toward zero, the semantics of the `.long()` casts
(`gxy.long()`, `target[:, :2].long()`). -/
def truncQ (x : Q) : ℤ := if 0 ≤ x then ⌊x⌋ else -⌊-x⌋

/-- One anchor prior (w, h, im, re), line 62 of the source. -/
structure Anchor where
  w : Q
  h : Q
  im : Q
  re : Q
deriving DecidableEq

/-- One row of the `target` tensor:
(box_idx, class, x, y, w, l, sin(yaw), cos(yaw)), see the `forward`
docstring. -/
structure TargetRow where
  b : Q
  label : Q
  x : Q
  y : Q
  w : Q
  h : Q
  im : Q
  re : Q
deriving DecidableEq

/-- The external pure collaborators (spec section 6) plus the transcendental
scalar functions.  `polyArea` is `get_polygons_fix_xy` (with its fixed
reference offset) composed with `.area` on a single box; `iouRA` is
`iou_rotated_boxes_vs_anchors` read entrywise, `iouRA aPolys aAreas tPolys
tAreas a t` being the IoU of anchor `a` against target `t`; `iouPred` is
`iou_pred_vs_target_boxes` read pairwise on one (decoded box, target box)
pair together with the grid size. -/
structure Prims where
  sigmoid : Q → Q
  exp : Q → Q
  log : Q → Q
  polyArea : Box4 → Q
  iouRA : List Box4 → List Q → List Box4 → List Q → ℕ → ℕ → Q
  iouPred : Box6 → Box6 → ℕ → Q

/-- First-occurrence argmax of `f` over `0, …, n-1`, the documented
tie-breaking of `torch.max(dim)` / `torch.argmax`: a later index replaces
the incumbent only when strictly greater.  Returns 0 on an empty range. -/
def argmaxFirst (f : ℕ → Q) : ℕ → ℕ
  | 0 => 0
  | n + 1 => if f n > f (argmaxFirst f n) then n else argmaxFirst f n

/-- Pointwise update of a tensor-as-function at a single index. -/
def upd {ι α : Type} [DecidableEq ι] (f : ι → α) (p : ι) (v : α) : ι → α :=
  fun q => if q = p then v else f q

/-- Scatter write of `v 0, …, v (n-1)` at `slot 0, …, slot (n-1)` into
`init`, in index order: the semantics of PyTorch advanced-indexing
assignment with the accepted last-write-wins collision policy
(later index overwrites). -/
def scatter {ι α : Type} [DecidableEq ι] (init : ι → α) (slot : ℕ → ι) (v : ℕ → α) :
    ℕ → ι → α
  | 0 => init
  | n + 1 => upd (scatter init slot v n) (slot n) (v n)

/-- Region update: write the constant `v` at every index satisfying `mem`. -/
def updSet {ι α : Type} (f : ι → α) (mem : ι → Bool) (v : α) : ι → α :=
  fun q => if mem q then v else f q

/-- Scatter of the constant `v` over the regions `mems 0, …, mems (n-1)`
in order: the semantics of the per-ground-truth-box loop
`noobj_mask[b[i], anchor_ious > self.ignore_thresh, gj[i], gi[i]] = 0`. -/
def scatterSet {ι α : Type} (init : ι → α) (mems : ℕ → ι → Bool) (v : α) :
    ℕ → ι → α
  | 0 => init
  | n + 1 => updSet (scatterSet init mems v n) (mems n) v

/-! ## The layer model -/

/-- Default row used for out-of-range list reads (never relied upon by the
claims, which carry the in-range hypotheses). -/
def defRow : TargetRow := ⟨0, 0, 0, 0, 0, 0, 0, 0⟩

def defAnchor : Anchor := ⟨0, 0, 0, 0⟩

/-- Additive epsilon of the log-space width/height targets (lines 130-131). -/
def epsLog : Q := 1 / 10 ^ 16

/-- Context of one `build_targets` call: the external primitives, the fields
of `self` it reads (`ignore_thresh`, the cached anchor polygons/areas), the
`anchors` argument (`self.scaled_anchors`), the target list and the
dimensions `nA` (anchor count) and `nG` (grid size). -/
structure BTCtx where
  P : Prims
  ignTh : Q
  aPolys : List Box4
  aAreas : List Q
  anchors : List Anchor
  ts : List TargetRow
  nA : ℕ
  nG : ℕ

namespace BTCtx

def row (c : BTCtx) (t : ℕ) : TargetRow := c.ts.getD t defRow

/-- `gxy = target_boxes[:, :2] * nG`, x component. -/
def gx (c : BTCtx) (t : ℕ) : Q := (c.row t).x * c.nG

def gy (c : BTCtx) (t : ℕ) : Q := (c.row t).y * c.nG

/-- `gwh = target_boxes[:, 2:4] * nG`, w component. -/
def gw (c : BTCtx) (t : ℕ) : Q := (c.row t).w * c.nG

def gh (c : BTCtx) (t : ℕ) : Q := (c.row t).h * c.nG

/-- `b, target_labels = target[:, :2].long().t()`, batch component. -/
def bIdx (c : BTCtx) (t : ℕ) : ℤ := truncQ (c.row t).b

def lbl (c : BTCtx) (t : ℕ) : ℤ := truncQ (c.row t).label

/-- `gi, gj = gxy.long().t()`, column component. -/
def gi (c : BTCtx) (t : ℕ) : ℤ := truncQ (c.gx t)

def gj (c : BTCtx) (t : ℕ) : ℤ := truncQ (c.gy t)

/-- Box data fed to the target polygon builder:
`target_boxes[:, 2:6] * nG`, i.e. (w, h, im, re) all scaled by `nG`
(the code multiplies the whole slice, rotation components included). -/
def tPolys (c : BTCtx) : List Box4 :=
  c.ts.map fun r => (r.w * c.nG, r.h * c.nG, r.im * c.nG, r.re * c.nG)

def tAreas (c : BTCtx) : List Q := c.tPolys.map c.P.polyArea

/-- Entry (anchor `a`, target `t`) of
`ious = iou_rotated_boxes_vs_anchors(anchor_polys, anchor_areas,
target_polys, target_areas)`. -/
def iou (c : BTCtx) (a t : ℕ) : Q := c.P.iouRA c.aPolys c.aAreas c.tPolys c.tAreas a t

/-- `best_ious, best_n = ious.max(0)`: per-target first-occurrence argmax
over the anchor dimension. -/
def best (c : BTCtx) (t : ℕ) : ℕ := argmaxFirst (fun a => c.iou a t) c.nA

/-- The slot `(b, best_n, gj, gi)` written for target `t`. -/
def slot (c : BTCtx) (t : ℕ) : Idx4 := (c.bIdx t, (c.best t : ℤ), c.gj t, c.gi t)

/-- Membership of index `q` in the region written by iteration `t` of
`noobj_mask[b[i], anchor_ious > self.ignore_thresh, gj[i], gi[i]] = 0`. -/
def ignMem (c : BTCtx) (t : ℕ) (q : Idx4) : Bool :=
  decide (q.1 = c.bIdx t ∧ q.2.2.1 = c.gj t ∧ q.2.2.2 = c.gi t) &&
    (List.range c.nA).any fun a => decide (q.2.1 = (a : ℤ)) && decide (c.iou a t > c.ignTh)

/-- Row `t` of `target_boxes = target[:, 2:8]` (normalized, unscaled), as
passed to `iou_pred_vs_target_boxes`. -/
def tbox (c : BTCtx) (t : ℕ) : Box6 :=
  ((c.row t).x, (c.row t).y, (c.row t).w, (c.row t).h, (c.row t).im, (c.row t).re)

end BTCtx

/-- The tensors `build_targets` returns (masks already cast to bool). -/
@[ext]
structure BTOut where
  iou_scores : Idx4 → Q
  class_mask : Idx4 → Q
  obj_mask : Idx4 → Bool
  noobj_mask : Idx4 → Bool
  tx : Idx4 → Q
  ty : Idx4 → Q
  tw : Idx4 → Q
  th : Idx4 → Q
  tim : Idx4 → Q
  tre : Idx4 → Q
  tcls : Idx4 × ℤ → Q
  tconf : Idx4 → Q

/-- The 6-channel decoded box `out_boxes[b, best_n, gj, gi]` at one slot. -/
def box6At (ob : Idx4 → ℕ → Q) (q : Idx4) : Box6 :=
  (ob q 0, ob q 1, ob q 2, ob q 3, ob q 4, ob q 5)

/-- The populated branch of `build_targets` (`n_target_boxes > 0`),
lines 96-140. -/
def btPos (c : BTCtx) (out_boxes pred_cls : Idx4 → ℕ → Q) (nC : ℕ) : BTOut :=
  let nT := c.ts.length
  let objM : Idx4 → Bool := scatter (fun _ => false) c.slot (fun _ => true) nT
  { obj_mask := objM
    noobj_mask :=
      scatterSet (scatter (fun _ => true) c.slot (fun _ => false) nT) c.ignMem false nT
    tx := scatter (fun _ => 0) c.slot (fun t => c.gx t - ((⌊c.gx t⌋ : ℤ) : Q)) nT
    ty := scatter (fun _ => 0) c.slot (fun t => c.gy t - ((⌊c.gy t⌋ : ℤ) : Q)) nT
    tw := scatter (fun _ => 0) c.slot
      (fun t => c.P.log (c.gw t / (c.anchors.getD (c.best t) defAnchor).w + epsLog)) nT
    th := scatter (fun _ => 0) c.slot
      (fun t => c.P.log (c.gh t / (c.anchors.getD (c.best t) defAnchor).h + epsLog)) nT
    tim := scatter (fun _ => 0) c.slot (fun t => (c.row t).im) nT
    tre := scatter (fun _ => 0) c.slot (fun t => (c.row t).re) nT
    tcls := scatter (fun _ => 0) (fun t => (c.slot t, c.lbl t)) (fun _ => (1 : Q)) nT
    class_mask := scatter (fun _ => 0) c.slot
      (fun t => if ((argmaxFirst (fun k => pred_cls (c.slot t) k) nC : ℕ) : ℤ) = c.lbl t
        then 1 else 0) nT
    iou_scores := scatter (fun _ => 0) c.slot
      (fun t => c.P.iouPred (box6At out_boxes (c.slot t)) (c.tbox t) c.nG) nT
    tconf := fun q => if objM q then 1 else 0 }

/-- The degenerate state `build_targets` returns when `n_target_boxes = 0`
(the initializations of lines 83-94, with `tconf = obj_mask.float()`). -/
def btZero : BTOut :=
  { iou_scores := fun _ => 0
    class_mask := fun _ => 0
    obj_mask := fun _ => false
    noobj_mask := fun _ => true
    tx := fun _ => 0
    ty := fun _ => 0
    tw := fun _ => 0
    th := fun _ => 0
    tim := fun _ => 0
    tre := fun _ => 0
    tcls := fun _ => 0
    tconf := fun _ => 0 }

/-- `build_targets`, with the `if n_target_boxes > 0` guard of line 96. -/
def buildTargets (c : BTCtx) (out_boxes pred_cls : Idx4 → ℕ → Q) (nC : ℕ) : BTOut :=
  if 0 < c.ts.length then btPos c out_boxes pred_cls nC else btZero

/-- The guard is equivalent to always taking the populated branch, because
every scatter over zero writes is its initial state. -/
theorem buildTargets_eq_pos (c : BTCtx) (ob pc : Idx4 → ℕ → Q) (nC : ℕ) :
    buildTargets c ob pc nC = btPos c ob pc nC := by
  by_cases h : 0 < c.ts.length
  · simp [buildTargets, h]
  · have hl : c.ts.length = 0 := by omega
    simp only [buildTargets, h, if_false]
    simp only [btPos, btZero, hl]
    rfl

/-! ## Grid geometry and the layer state -/

/-- `torch.arange(g, dtype=float)` as a list of rationals. -/
def arangeQ (g : ℕ) : List Q := (List.range g).map fun n => (Nat.cast n : Q)

/-- `torch.arange(g).repeat(g, 1)`: `g` stacked copies of the range row. -/
def arangeRepeat (g : ℕ) : List (List Q) := List.replicate g (arangeQ g)

/-- Entry `(r, c)` of `torch.arange(g).repeat(g, 1).view([1, 1, g, g])`
(the two leading length-1 axes are dropped in the embedding).
`grid_y` is the transpose: entry `(r, c)` of `grid_y` is `gridXVal g c r`. -/
def gridXVal (g : ℕ) (r c : ℤ) : Q := ((arangeRepeat g).getD r.toNat []).getD c.toNat 0

/-- The mutable attributes of a `YoloLayer` instance.  `num_anchors` is kept
as `anchors.length` (line 34 stores exactly that and neither is ever
reassigned).  The cached anchor polygons are represented by the box data
they are built from, and the cached areas by `polyArea` of that data. -/
@[ext]
structure LayerState where
  num_classes : ℕ
  anchors : List Anchor
  stride : Q
  scale_x_y : Q
  ignore_thresh : Q
  noobj_scale : Q
  obj_scale : Q
  lbox_scale : Q
  lobj_scale : Q
  lcls_scale : Q
  seen : ℕ
  grid_size : ℕ
  img_size : Q
  grid_x : ℤ → ℤ → Q
  grid_y : ℤ → ℤ → Q
  scaled_anchors : List Anchor
  anchor_w : ℤ → Q
  anchor_h : ℤ → Q
  scaled_anchors_polygons : List Box4
  scaled_anchors_areas : List Q

/-- `__init__` (lines 29-52).  The grid-dependent attributes do not exist in
Python until `compute_grid_offsets` runs; they are given inert zero dummies
here, matching the "Initialize dummy variables" block for `grid_size` and
`img_size`. -/
def initLayer (num_classes : ℕ) (anchors : List Anchor) (stride : Q)
    (scale_x_y : Q) (ignore_thresh : Q) : LayerState :=
  { num_classes := num_classes
    anchors := anchors
    stride := stride
    scale_x_y := scale_x_y
    ignore_thresh := ignore_thresh
    noobj_scale := 100
    obj_scale := 1
    lbox_scale := 1
    lobj_scale := 1
    lcls_scale := 1
    seen := 0
    grid_size := 0
    img_size := 0
    grid_x := fun _ _ => 0
    grid_y := fun _ _ => 0
    scaled_anchors := []
    anchor_w := fun _ => 0
    anchor_h := fun _ => 0
    scaled_anchors_polygons := []
    scaled_anchors_areas := [] }

/-- `compute_grid_offsets` (lines 54-69). -/
def computeGridOffsets (P : Prims) (st : LayerState) (g : ℕ) : LayerState :=
  let stride := st.img_size / (g : Q)
  let sa := st.anchors.map fun a => (⟨a.w / stride, a.h / stride, a.im, a.re⟩ : Anchor)
  let saP : List Box4 := sa.map fun a => (a.w, a.h, a.im, a.re)
  { st with
    grid_size := g
    stride := stride
    grid_x := fun r c => gridXVal g r c
    grid_y := fun r c => gridXVal g c r
    scaled_anchors := sa
    anchor_w := fun a => (sa.getD a.toNat defAnchor).w
    anchor_h := fun a => (sa.getD a.toNat defAnchor).h
    scaled_anchors_polygons := saP
    scaled_anchors_areas := saP.map P.polyArea }

/-! ## The decoder -/

/-- `prediction = x.view(nB, nA, nC+7, g, g).permute(0, 1, 3, 4, 2)`:
channel `k` of cell `q = (s, a, j, i)` is input channel `a*(nC+7)+k`
at spatial position `(j, i)` of sample `s`. -/
def rawPred (nC : ℕ) (x : ℤ → ℤ → ℤ → ℤ → Q) : Idx4 → ℕ → Q :=
  fun q k => x q.1 (q.2.1 * ((nC : ℤ) + 7) + (k : ℤ)) q.2.2.1 q.2.2.2

/-- `pred_x = torch.sigmoid(prediction[..., 0])`. -/
def predX (P : Prims) (nC : ℕ) (x : ℤ → ℤ → ℤ → ℤ → Q) : Idx4 → Q :=
  fun q => P.sigmoid (rawPred nC x q 0)

/-- `pred_y = torch.sigmoid(prediction[..., 1])`. -/
def predY (P : Prims) (nC : ℕ) (x : ℤ → ℤ → ℤ → ℤ → Q) : Idx4 → Q :=
  fun q => P.sigmoid (rawPred nC x q 1)

/-- `pred_w = prediction[..., 2]` (no sigmoid). -/
def predW (nC : ℕ) (x : ℤ → ℤ → ℤ → ℤ → Q) : Idx4 → Q := fun q => rawPred nC x q 2

/-- `pred_h = prediction[..., 3]` (no sigmoid). -/
def predH (nC : ℕ) (x : ℤ → ℤ → ℤ → ℤ → Q) : Idx4 → Q := fun q => rawPred nC x q 3

/-- `pred_im = prediction[..., 4]` (no sigmoid). -/
def predIm (nC : ℕ) (x : ℤ → ℤ → ℤ → ℤ → Q) : Idx4 → Q := fun q => rawPred nC x q 4

/-- `pred_re = prediction[..., 5]` (no sigmoid). -/
def predRe (nC : ℕ) (x : ℤ → ℤ → ℤ → ℤ → Q) : Idx4 → Q := fun q => rawPred nC x q 5

/-- `pred_conf = torch.sigmoid(prediction[..., 6])`. -/
def predConf (P : Prims) (nC : ℕ) (x : ℤ → ℤ → ℤ → ℤ → Q) : Idx4 → Q :=
  fun q => P.sigmoid (rawPred nC x q 6)

/-- `pred_cls = torch.sigmoid(prediction[..., 7:])`, class channel `k`. -/
def predCls (P : Prims) (nC : ℕ) (x : ℤ → ℤ → ℤ → ℤ → Q) : Idx4 → ℕ → Q :=
  fun q k => P.sigmoid (rawPred nC x q (7 + k))

/-- `out_boxes` (lines 176-182): channel `k` of the decoded box at cell
`q = (s, a, j, i)`.  `gx, gy` are the cached grid offsets (broadcast over
batch and anchor), `aw, ah` the cached per-anchor scaled sizes (broadcast
over batch and space).  Channels beyond 5 do not exist in the tensor; the
total function returns 0 there. -/
def outBoxes (P : Prims) (gx gy : ℤ → ℤ → Q) (aw ah : ℤ → Q) (nC : ℕ)
    (x : ℤ → ℤ → ℤ → ℤ → Q) : Idx4 → ℕ → Q :=
  fun q k =>
    match k with
    | 0 => predX P nC x q + gx q.2.2.1 q.2.2.2
    | 1 => predY P nC x q + gy q.2.2.1 q.2.2.2
    | 2 => P.exp (predW nC x q) * aw q.2.1
    | 3 => P.exp (predH nC x q) * ah q.2.1
    | 4 => predIm nC x q
    | 5 => predRe nC x q
    | _ => 0

/-- The flat `output` tensor (lines 184-189): box `n` of sample `s` is cell
`(a, j, i)` with `n = a*g*g + j*g + i`; channels 0-3 are the decoded box
scaled by stride, 4-5 the raw im/re, 6 the objectness, and 7+ the class
scores. -/
def flatOutput (P : Prims) (gx gy : ℤ → ℤ → Q) (aw ah : ℤ → Q) (stride : Q)
    (nC g : ℕ) (x : ℤ → ℤ → ℤ → ℤ → Q) : ℤ → ℤ → ℕ → Q :=
  fun s n k =>
    let a := n / ((g : ℤ) * (g : ℤ))
    let j := n % ((g : ℤ) * (g : ℤ)) / (g : ℤ)
    let i := n % (g : ℤ)
    let q : Idx4 := (s, a, j, i)
    if k < 4 then outBoxes P gx gy aw ah nC x q k * stride
    else if k < 6 then outBoxes P gx gy aw ah nC x q k
    else if k = 6 then predConf P nC x q
    else predCls P nC x q (k - 7)

/-! ## Loss composition -/

/-- Row-major enumeration of all (batch, anchor, row, col) indices, the
order in which boolean mask indexing flattens a tensor. -/
def allIdx (nB nA g : ℕ) : List Idx4 :=
  (List.range nB).flatMap fun s =>
    (List.range nA).flatMap fun a =>
      (List.range g).flatMap fun j =>
        (List.range g).map fun i => ((s : ℤ), (a : ℤ), (j : ℤ), (i : ℤ))

/-- Elementwise `F.binary_cross_entropy` term. -/
def bce (P : Prims) (p t : Q) : Q := -(t * P.log p + (1 - t) * P.log (1 - p))

/-- Mean reduction.  The mean of an empty selection is 0/0, NaN in PyTorch:
modelled as `none`. -/
def meanQ (l : List Q) : Option Q :=
  if l.isEmpty then none else some (l.sum / (l.length : Q))

/-- Lines 199-206: box, objectness and classification losses and the total.
`none` models the NaN produced by an empty-mean; NaN propagation through
the sum is modelled by `Option.bind`. -/
def lossOf (P : Prims) (lbox objS noobjS lobj lcls_s : Q) (bt : BTOut)
    (pconf : Idx4 → Q) (pcls : Idx4 → ℕ → Q) (nB nA g nC : ℕ) : Option Q :=
  let objIdx := (allIdx nB nA g).filter fun q => bt.obj_mask q
  let noobjIdx := (allIdx nB nA g).filter fun q => bt.noobj_mask q
  (meanQ (objIdx.map fun q => 1 - bt.iou_scores q)).bind fun loss_box =>
    (meanQ (objIdx.map fun q => bce P (pconf q) (bt.tconf q))).bind fun lco =>
      (meanQ (noobjIdx.map fun q => bce P (pconf q) (bt.tconf q))).bind fun lcn =>
        (meanQ ((objIdx.map fun q =>
            (List.range nC).map fun k => bce P (pcls q k) (bt.tcls (q, (k : ℤ)))).flatten)).bind
          fun lcls =>
            some (loss_box * lbox + (objS * lco + noobjS * lcn) * lobj + lcls * lcls_s)

/-- Result of one `forward` call: the flat output, the loss (`some 0` on the
no-target path, `none` for NaN) and the mutated `self`. -/
structure FwdRes where
  output : ℤ → ℤ → ℕ → Q
  loss : Option Q
  state : LayerState

/-- `forward` (lines 145-216).  Sets `img_size`, recomputes the grid
geometry iff the incoming grid size differs from the cached one, decodes,
and on the training path builds targets and the composite loss. -/
def forward (P : Prims) (st0 : LayerState) (x : ℤ → ℤ → ℤ → ℤ → Q) (nB g : ℕ)
    (targets : Option (List TargetRow)) (img_size : Q) : FwdRes :=
  let st1 : LayerState := { st0 with img_size := img_size }
  let nC := st1.num_classes
  let nA := st1.anchors.length
  let st2 := if g = st1.grid_size then st1 else computeGridOffsets P st1 g
  let ob := outBoxes P st2.grid_x st2.grid_y st2.anchor_w st2.anchor_h nC x
  let out := flatOutput P st2.grid_x st2.grid_y st2.anchor_w st2.anchor_h st2.stride nC g x
  match targets with
  | none => { output := out, loss := some 0, state := st2 }
  | some ts =>
      let c : BTCtx :=
        { P := P
          ignTh := st2.ignore_thresh
          aPolys := st2.scaled_anchors_polygons
          aAreas := st2.scaled_anchors_areas
          anchors := st2.scaled_anchors
          ts := ts
          nA := nA
          nG := g }
      let bt := buildTargets c ob (predCls P nC x) nC
      { output := out
        loss := lossOf P st2.lbox_scale st2.obj_scale st2.noobj_scale st2.lobj_scale
          st2.lcls_scale bt (predConf P nC x) (predCls P nC x) nB nA g nC
        state := st2 }


/-! ## Concrete demonstration instances used by the closed witnesses -/

/-- A concrete primitive bundle.  `iouRA` favours anchor 1, so the stable
argmax is exercised away from index 0. -/
def demoPrims : Prims :=
  { sigmoid := fun q => q / 2
    exp := fun q => q + 1
    log := fun q => q - 1
    polyArea := fun b => b.1 * b.2.1
    iouRA := fun _ _ _ _ a _ => if a = 1 then 1 else 0
    iouPred := fun b _ _ => b.1 }

def demoAnchors : List Anchor := [⟨2, 2, 0, 1⟩, ⟨4, 4, 0, 1⟩, ⟨6, 6, 0, 1⟩]

def demoState0 : LayerState :=
  { initLayer 2 demoAnchors 32 1 (1 / 2) with img_size := 608 }

def ob0 : Idx4 → ℕ → Q := fun _ _ => 0

def pc0 : Idx4 → ℕ → Q := fun _ _ => 0

/-- One ground-truth box on a 2×2 grid with three anchors. -/
def demoCtx : BTCtx :=
  { P := demoPrims
    ignTh := 1 / 2
    aPolys := [(2, 2, 0, 1), (4, 4, 0, 1), (6, 6, 0, 1)]
    aAreas := [4, 16, 36]
    anchors := demoAnchors
    ts := [⟨0, 0, 1 / 4, 1 / 4, 1 / 4, 1 / 4, 0, 1⟩]
    nA := 3
    nG := 2 }

/-- Two ground-truth boxes with different labels colliding on the same
(batch, anchor, row, col) slot. -/
def demoCollCtx : BTCtx :=
  { P := demoPrims
    ignTh := 1 / 2
    aPolys := [(2, 2, 0, 1)]
    aAreas := [4]
    anchors := [⟨2, 2, 0, 1⟩]
    ts := [⟨0, 0, 1 / 8, 1 / 8, 1 / 4, 1 / 4, 0, 1⟩,
           ⟨0, 1, 1 / 8, 1 / 8, 1 / 2, 1 / 2, 1, 0⟩]
    nA := 1
    nG := 2 }

/-- One ground-truth box whose normalized center_x is exactly 1. -/
def demoEdgeCtx : BTCtx :=
  { P := demoPrims
    ignTh := 1 / 2
    aPolys := [(2, 2, 0, 1)]
    aAreas := [4]
    anchors := [⟨2, 2, 0, 1⟩]
    ts := [⟨0, 0, 1, 1 / 2, 1 / 4, 1 / 4, 0, 1⟩]
    nA := 1
    nG := 2 }



/-! ## Helper lemmas -/

theorem scatter_succ {ι α : Type} [DecidableEq ι] (init : ι → α) (slot : ℕ → ι)
    (v : ℕ → α) (n : ℕ) :
    scatter init slot v (n + 1) = upd (scatter init slot v n) (slot n) (v n) := rfl

/-- The value at the slot of write `t` is `v t`, provided no later write in
range touches that slot. -/
theorem scatter_last {ι α : Type} [DecidableEq ι] (init : ι → α) (slot : ℕ → ι)
    (v : ℕ → α) (n t : ℕ) (ht : t < n)
    (hlast : ∀ u, t < u → u < n → slot u ≠ slot t) :
    scatter init slot v n (slot t) = v t := by
  induction n with
  | zero => omega
  | succ m ih =>
      by_cases hm : t = m
      · subst hm
        simp [scatter, upd]
      · have htm : t < m := by omega
        have hne : slot t ≠ slot m :=
          fun h => hlast m (by omega) (by omega) h.symm
        simp only [scatter, upd, if_neg hne]
        exact ih htm (fun u hu hum => hlast u hu (by omega))

/-- A slot no write in range touches keeps its initial value. -/
theorem scatter_untouched {ι α : Type} [DecidableEq ι] (init : ι → α)
    (slot : ℕ → ι) (v : ℕ → α) (n : ℕ) (q : ι)
    (h : ∀ t, t < n → slot t ≠ q) :
    scatter init slot v n q = init q := by
  induction n with
  | zero => rfl
  | succ m ih =>
      have hne : q ≠ slot m := fun hq => h m (by omega) hq.symm
      simp only [scatter, upd, if_neg hne]
      exact ih (fun t ht => h t (by omega))

/-- A slot some write in range touches holds the written constant. -/
theorem scatter_const_hit {ι α : Type} [DecidableEq ι] (init : ι → α)
    (slot : ℕ → ι) (k : α) (n : ℕ) (q : ι)
    (h : ∃ t, t < n ∧ slot t = q) :
    scatter init slot (fun _ => k) n q = k := by
  induction n with
  | zero =>
      obtain ⟨t, ht, _⟩ := h
      omega
  | succ m ih =>
      obtain ⟨t, ht, hq⟩ := h
      by_cases hm : q = slot m
      · simp [scatter, upd, if_pos hm]
      · have htm : t < m := by
          have : t < m ∨ t = m := by omega
          rcases this with h' | h'
          · exact h'
          · exact absurd (h' ▸ hq).symm hm
        simp only [scatter, upd, if_neg hm]
        exact ih ⟨t, htm, hq⟩

/-- Characterization of a constant scatter over an initial state that never
equals the written constant. -/
theorem scatter_const_iff {ι α : Type} [DecidableEq ι] (init : ι → α)
    (slot : ℕ → ι) (k : α) (n : ℕ) (q : ι) (hinit : init q ≠ k) :
    scatter init slot (fun _ => k) n q = k ↔ ∃ t, t < n ∧ slot t = q := by
  constructor
  · intro h
    by_contra hc
    push_neg at hc
    have hu := scatter_untouched init slot (fun _ => k) n q (fun t ht => hc t ht)
    rw [hu] at h
    exact hinit h
  · exact scatter_const_hit init slot k n q

/-- A region-scatter slot holds the written constant iff some region in
range contains it, or it started there. -/
theorem scatterSet_const_iff {ι α : Type} (init : ι → α) (mems : ℕ → ι → Bool)
    (k : α) (n : ℕ) (q : ι) (hinit : init q ≠ k) :
    scatterSet init mems k n q = k ↔ ∃ t, t < n ∧ mems t q = true := by
  induction n with
  | zero =>
      simp only [scatterSet]
      constructor
      · intro h
        exact absurd h hinit
      · rintro ⟨t, ht, _⟩
        omega
  | succ m ih =>
      simp only [scatterSet, updSet]
      by_cases hm : mems m q = true
      · rw [if_pos hm]
        constructor
        · intro _
          exact ⟨m, by omega, hm⟩
        · intro _
          rfl
      · rw [if_neg hm, ih]
        constructor
        · rintro ⟨t, ht, hmem⟩
          exact ⟨t, by omega, hmem⟩
        · rintro ⟨t, ht, hmem⟩
          have htm : t < m := by
            have : t < m ∨ t = m := by omega
            rcases this with h' | h'
            · exact h'
            · exact absurd (h' ▸ hmem) hm
          exact ⟨t, htm, hmem⟩


theorem argmaxFirst_le (f : ℕ → Q) (n a : ℕ) (ha : a < n) :
    f a ≤ f (argmaxFirst f n) := by
  induction n with
  | zero => omega
  | succ m ih =>
      simp only [argmaxFirst]
      by_cases h : f m > f (argmaxFirst f m)
      · rw [if_pos h]
        have ham : a < m ∨ a = m := by omega
        rcases ham with h' | h'
        · exact le_trans (ih h') (le_of_lt h)
        · exact h' ▸ le_refl _
      · rw [if_neg h]
        have ham : a < m ∨ a = m := by omega
        rcases ham with h' | h'
        · exact ih h'
        · subst h'
          exact not_lt.mp h

theorem argmaxFirst_lt (f : ℕ → Q) (n : ℕ) (h : 0 < n) : argmaxFirst f n < n := by
  induction n with
  | zero => omega
  | succ m ih =>
      simp only [argmaxFirst]
      by_cases hm : f m > f (argmaxFirst f m)
      · rw [if_pos hm]
        omega
      · rw [if_neg hm]
        rcases Nat.eq_zero_or_pos m with h0 | hpos
        · subst h0
          have h1 : argmaxFirst f 0 = 0 := rfl
          omega
        · exact Nat.lt_succ_of_lt (ih hpos)

/-- Strict first-occurrence tie-breaking: every index before the argmax has
a strictly smaller value. -/
theorem argmaxFirst_strict (f : ℕ → Q) (n a : ℕ) (ha : a < argmaxFirst f n) :
    f a < f (argmaxFirst f n) := by
  induction n with
  | zero =>
      have h0 : argmaxFirst f 0 = 0 := rfl
      rw [h0] at ha
      exact absurd ha (Nat.not_lt_zero a)
  | succ m ih =>
      simp only [argmaxFirst] at ha ⊢
      by_cases h : f m > f (argmaxFirst f m)
      · rw [if_pos h] at ha ⊢
        exact lt_of_le_of_lt (argmaxFirst_le f m a ha) h
      · rw [if_neg h] at ha ⊢
        exact ih ha

theorem truncQ_of_nonneg (x : Q) (h : 0 ≤ x) : truncQ x = ⌊x⌋ := if_pos h

theorem arangeQ_getD (g c : ℕ) (hc : c < g) : (arangeQ g).getD c 0 = c := by
  unfold arangeQ
  rw [List.getD_eq_getElem?_getD, List.getElem?_map, List.getElem?_range hc]
  rfl

theorem arangeRepeat_getD (g r : ℕ) (hr : r < g) :
    (arangeRepeat g).getD r [] = arangeQ g := by
  unfold arangeRepeat
  rw [List.getD_eq_getElem?_getD, List.getElem?_replicate]
  simp [hr]

theorem gridXVal_eq (g r c : ℕ) (hr : r < g) (hc : c < g) :
    gridXVal g (r : ℤ) (c : ℤ) = c := by
  unfold gridXVal
  rw [Int.toNat_natCast, Int.toNat_natCast, arangeRepeat_getD g r hr,
    arangeQ_getD g c hc]

/-- A write-false region-scatter is false exactly where it started false or
some region in range covers the index. -/
theorem scatterSet_false_iff {ι : Type} (init : ι → Bool) (mems : ℕ → ι → Bool)
    (n : ℕ) (q : ι) :
    scatterSet init mems false n q = false ↔
      init q = false ∨ ∃ t, t < n ∧ mems t q = true := by
  induction n with
  | zero =>
      simp only [scatterSet]
      constructor
      · intro h
        exact Or.inl h
      · rintro (h | ⟨t, ht, _⟩)
        · exact h
        · omega
  | succ m ih =>
      simp only [scatterSet, updSet]
      by_cases hm : mems m q = true
      · rw [if_pos hm]
        constructor
        · intro _
          exact Or.inr ⟨m, by omega, hm⟩
        · intro _
          rfl
      · rw [if_neg hm, ih]
        constructor
        · rintro (h | ⟨t, ht, hmem⟩)
          · exact Or.inl h
          · exact Or.inr ⟨t, by omega, hmem⟩
        · rintro (h | ⟨t, ht, hmem⟩)
          · exact Or.inl h
          · have htm : t < m := by
              have hor : t < m ∨ t = m := by omega
              rcases hor with h' | h'
              · exact h'
              · exact absurd (h' ▸ hmem) hm
            exact Or.inr ⟨t, htm, hmem⟩

/-- Unfolding of the boolean region membership of the ignore-threshold
loop iteration `t`. -/
theorem ignMem_iff (c : BTCtx) (t : ℕ) (q : Idx4) :
    c.ignMem t q = true ↔
      ∃ a, a < c.nA ∧ q = (c.bIdx t, (a : ℤ), c.gj t, c.gi t) ∧
        c.iou a t > c.ignTh := by
  obtain ⟨q1, q2, q3, q4⟩ := q
  simp only [BTCtx.ignMem, Bool.and_eq_true, decide_eq_true_eq, List.any_eq_true,
    List.mem_range, Prod.mk.injEq]
  constructor
  · rintro ⟨⟨h1, h3, h4⟩, a, ha, h2, hiou⟩
    exact ⟨a, ha, ⟨h1, h2, h3, h4⟩, hiou⟩
  · rintro ⟨a, ha, ⟨h1, h2, h3, h4⟩, hiou⟩
    exact ⟨⟨h1, h3, h4⟩, a, ha, h2, hiou⟩



/-! ## Claim C3: decoder channel treatment -/

/-- Claim C3: for every input tensor, sigmoid is applied exactly to the
x-offset, y-offset, objectness and class channels, the width, height, im,
re channels pass through raw, and the decoded box satisfies
center_x = sigmoid(raw_x) + grid_x_offset, center_y = sigmoid(raw_y) +
grid_y_offset, width = exp(raw_w) · anchor_w, height = exp(raw_h) ·
anchor_h, with im and re passed through unchanged. -/
theorem c3_decoder_channels (P : Prims) (nC : ℕ) (x : ℤ → ℤ → ℤ → ℤ → Q)
    (gx gy : ℤ → ℤ → Q) (aw ah : ℤ → Q) (q : Idx4) (k : ℕ) :
    predX P nC x q = P.sigmoid (rawPred nC x q 0) ∧
    predY P nC x q = P.sigmoid (rawPred nC x q 1) ∧
    predW nC x q = rawPred nC x q 2 ∧
    predH nC x q = rawPred nC x q 3 ∧
    predIm nC x q = rawPred nC x q 4 ∧
    predRe nC x q = rawPred nC x q 5 ∧
    predConf P nC x q = P.sigmoid (rawPred nC x q 6) ∧
    predCls P nC x q k = P.sigmoid (rawPred nC x q (7 + k)) ∧
    outBoxes P gx gy aw ah nC x q 0 = P.sigmoid (rawPred nC x q 0) + gx q.2.2.1 q.2.2.2 ∧
    outBoxes P gx gy aw ah nC x q 1 = P.sigmoid (rawPred nC x q 1) + gy q.2.2.1 q.2.2.2 ∧
    outBoxes P gx gy aw ah nC x q 2 = P.exp (rawPred nC x q 2) * aw q.2.1 ∧
    outBoxes P gx gy aw ah nC x q 3 = P.exp (rawPred nC x q 3) * ah q.2.1 ∧
    outBoxes P gx gy aw ah nC x q 4 = rawPred nC x q 4 ∧
    outBoxes P gx gy aw ah nC x q 5 = rawPred nC x q 5 :=
  ⟨rfl, rfl, rfl, rfl, rfl, rfl, rfl, rfl, rfl, rfl, rfl, rfl, rfl, rfl⟩

/-! ## Claim C1: zero ground-truth boxes on the training path -/

/-- Claim C1 (refuted, code bug): the spec requires the empty-mean of the
box-loss term to be guarded so that the total loss stays finite, but the
code has no guard: with a non-None targets tensor of zero rows, `obj_mask`
is all-false, `iou_scores[obj_mask]` is empty, and
`(1. - iou_masked).mean()` is an empty mean (0/0, NaN); the returned total
loss is therefore the undefined value (modelled `none`), not a finite
scalar. -/
theorem c1_zero_boxes_loss_nan (P : Prims) (st : LayerState)
    (x : ℤ → ℤ → ℤ → ℤ → Q) (nB g : ℕ) (im : Q) :
    (forward P st x nB g (some []) im).loss = none := by
  simp [forward, buildTargets, btZero, lossOf, List.filter_false, meanQ]

/-! ## Claim C10: the stored scale_x_y never influences forward -/

/-- Changing only `scale_x_y` changes neither the output nor the loss of
`forward` (the field is stored by `__init__` and never read). -/
theorem forward_scale_x_y (P : Prims) (st : LayerState) (s : Q)
    (x : ℤ → ℤ → ℤ → ℤ → Q) (nB g : ℕ) (tg : Option (List TargetRow)) (im : Q) :
    (forward P { st with scale_x_y := s } x nB g tg im).output
        = (forward P st x nB g tg im).output ∧
    (forward P { st with scale_x_y := s } x nB g tg im).loss
        = (forward P st x nB g tg im).loss := by
  by_cases h : g = st.grid_size <;>
    cases tg <;>
      constructor <;>
        simp [forward, computeGridOffsets, h]

/-- Claim C10: two instances constructed with identical num_classes,
anchors, stride and ignore_thresh but different scale_x_y values return
identical (output, loss) from forward: the stored scale_x_y never
influences any computation. -/
theorem c10_scale_x_y_unused (P : Prims) (nc : ℕ) (an : List Anchor)
    (strd thr s₁ s₂ : Q) (x : ℤ → ℤ → ℤ → ℤ → Q) (nB g : ℕ)
    (tg : Option (List TargetRow)) (im : Q) :
    (forward P (initLayer nc an strd s₁ thr) x nB g tg im).output
        = (forward P (initLayer nc an strd s₂ thr) x nB g tg im).output ∧
    (forward P (initLayer nc an strd s₁ thr) x nB g tg im).loss
        = (forward P (initLayer nc an strd s₂ thr) x nB g tg im).loss := by
  have h₁ := forward_scale_x_y P (initLayer nc an strd s₂ thr) s₁ x nB g tg im
  exact h₁

/-! ## Claim C9: the geometry cache is rebuilt exactly on grid-size change -/

/-- Claim C9: the cached grid geometry is rebuilt exactly when the incoming
grid size differs from the cached one: with an equal grid size, forward
only sets img_size and leaves the whole cached state (in particular every
geometry field) unchanged; with a different grid size the returned state is
exactly the recomputation. -/
theorem c9_geometry_cache (P : Prims) (st : LayerState)
    (x : ℤ → ℤ → ℤ → ℤ → Q) (nB g : ℕ) (tg : Option (List TargetRow)) (im : Q) :
    (g = st.grid_size →
      (forward P st x nB g tg im).state = { st with img_size := im }) ∧
    (g ≠ st.grid_size →
      (forward P st x nB g tg im).state
        = computeGridOffsets P { st with img_size := im } g) := by
  by_cases h : g = st.grid_size <;>
    cases tg <;>
      constructor <;>
        simp [forward, h]

/-! ## Claim C6: grid offsets and anchor scaling -/

/-- Claim C6: after compute_grid_offsets(g), the x-offset and y-offset
arrays (leading 1×1 axes dropped) satisfy offset_x[r,c] = c and
offset_y[r,c] = r for all valid r, c, and the scaled anchor list equals
each anchor prior with only the width and height components divided by the
stride img_size/g while the im and re components pass through unchanged. -/
theorem c6_grid_offsets (P : Prims) (st : LayerState) (g r c k : ℕ)
    (hr : r < g) (hc : c < g) (hk : k < st.anchors.length) :
    (computeGridOffsets P st g).grid_x (r : ℤ) (c : ℤ) = (c : Q) ∧
    (computeGridOffsets P st g).grid_y (r : ℤ) (c : ℤ) = (r : Q) ∧
    (computeGridOffsets P st g).scaled_anchors.getD k defAnchor =
      { w := (st.anchors.getD k defAnchor).w / (st.img_size / (g : Q))
        h := (st.anchors.getD k defAnchor).h / (st.img_size / (g : Q))
        im := (st.anchors.getD k defAnchor).im
        re := (st.anchors.getD k defAnchor).re } := by
  refine ⟨gridXVal_eq g r c hr hc, gridXVal_eq g c r hc hr, ?_⟩
  simp only [computeGridOffsets]
  rw [List.getD_eq_getElem?_getD, List.getElem?_map, List.getElem?_eq_getElem hk]
  rw [List.getD_eq_getElem?_getD, List.getElem?_eq_getElem hk]
  rfl

/-- Witness for C6 at g = 2, r = 1, c = 0 and anchor 0 of the demo state. -/
theorem c6_grid_offsets_witness :
    ((1 : ℕ) < 2 ∧ (0 : ℕ) < 2 ∧ 0 < demoState0.anchors.length) ∧
    ((computeGridOffsets demoPrims demoState0 2).grid_x ((1 : ℕ) : ℤ) ((0 : ℕ) : ℤ)
        = ((0 : ℕ) : Q) ∧
      (computeGridOffsets demoPrims demoState0 2).grid_y ((1 : ℕ) : ℤ) ((0 : ℕ) : ℤ)
        = ((1 : ℕ) : Q) ∧
      (computeGridOffsets demoPrims demoState0 2).scaled_anchors.getD 0 defAnchor =
        { w := (demoState0.anchors.getD 0 defAnchor).w / (demoState0.img_size / ((2 : ℕ) : Q))
          h := (demoState0.anchors.getD 0 defAnchor).h / (demoState0.img_size / ((2 : ℕ) : Q))
          im := (demoState0.anchors.getD 0 defAnchor).im
          re := (demoState0.anchors.getD 0 defAnchor).re }) :=
  ⟨⟨by omega, by omega, by decide⟩,
    c6_grid_offsets demoPrims demoState0 2 1 0 0 (by omega) (by omega) (by decide)⟩

/-! ## Claim C2: best-anchor assignment -/

/-- Claim C2: given the external rotated-IoU matrix over every
(ground-truth box, scaled anchor) pair, each ground-truth box is assigned
the anchor index with maximum IoU for that box, ties broken by the
first-occurring maximum (stable argmax: every anchor before the chosen one
is strictly worse), and obj_mask is set true at that
(batch, best_anchor, row, col) slot. -/
theorem c2_best_anchor_assignment (c : BTCtx) (ob pc : Idx4 → ℕ → Q) (nC : ℕ)
    (t a : ℕ) (ht : t < c.ts.length) (ha : a < c.nA) (h0 : 0 < c.nA) :
    (buildTargets c ob pc nC).obj_mask (c.slot t) = true ∧
    c.best t < c.nA ∧
    c.iou a t ≤ c.iou (c.best t) t ∧
    (a < c.best t → c.iou a t < c.iou (c.best t) t) := by
  rw [buildTargets_eq_pos]
  refine ⟨?_, argmaxFirst_lt (fun a => c.iou a t) c.nA h0,
    argmaxFirst_le (fun a => c.iou a t) c.nA a ha,
    fun hlt => argmaxFirst_strict (fun a => c.iou a t) c.nA a hlt⟩
  show scatter (fun _ => false) c.slot (fun _ => true) c.ts.length (c.slot t) = true
  exact scatter_const_hit _ _ _ _ _ ⟨t, ht, rfl⟩

/-- Witness for C2 at the demo context: anchor 1 has the strictly largest
IoU, the stable argmax picks it, and obj_mask is set at the slot. -/
theorem c2_best_anchor_assignment_witness :
    ((0 : ℕ) < demoCtx.ts.length ∧ (0 : ℕ) < demoCtx.nA ∧ demoCtx.best 0 = 1) ∧
    ((buildTargets demoCtx ob0 pc0 2).obj_mask (demoCtx.slot 0) = true ∧
      demoCtx.best 0 < demoCtx.nA ∧
      demoCtx.iou 0 0 ≤ demoCtx.iou (demoCtx.best 0) 0 ∧
      (0 < demoCtx.best 0 → demoCtx.iou 0 0 < demoCtx.iou (demoCtx.best 0) 0)) :=
  ⟨⟨by decide, by decide, by decide⟩,
    c2_best_anchor_assignment demoCtx ob0 pc0 2 0 0 (by decide) (by decide) (by decide)⟩

/-! ## Claim C5: no-object mask characterization -/

/-- Claim C5: after build_targets, no_object_mask is false exactly at
(a) every object-assigned slot and (b) every slot (batch_i, a, row_i,
col_i) of a ground-truth box i whose IoU with anchor a exceeds
ignore_thresh (not only the best anchor), and true at every other slot. -/
theorem c5_noobj_mask_characterization (c : BTCtx) (ob pc : Idx4 → ℕ → Q)
    (nC : ℕ) (q : Idx4) :
    (buildTargets c ob pc nC).noobj_mask q = false ↔
      (∃ t, t < c.ts.length ∧ c.slot t = q) ∨
      (∃ t, t < c.ts.length ∧ ∃ a, a < c.nA ∧
        q = (c.bIdx t, (a : ℤ), c.gj t, c.gi t) ∧ c.iou a t > c.ignTh) := by
  rw [buildTargets_eq_pos]
  show scatterSet (scatter (fun _ => true) c.slot (fun _ => false) c.ts.length)
      c.ignMem false c.ts.length q = false ↔ _
  rw [scatterSet_false_iff]
  rw [scatter_const_iff _ _ _ _ _ (fun h => Bool.noConfusion h)]
  exact or_congr Iff.rfl
    (exists_congr fun t => and_congr_right fun _ => ignMem_iff c t q)

/-! ## Claim C4: the values written at an assigned slot -/

/-- Claim C4: for a ground-truth box t that is the unique writer of its
slot, build_targets sets tx = gx − ⌊gx⌋ and ty = gy − ⌊gy⌋, tw =
log(gw / anchor_w_at_best + 1e-16) and th analogously, tim and tre
directly from the ground truth's sin/cos components, the one-hot class
target at the ground-truth label, and the confidence target equals
obj_mask cast to float at every index (recomputed after all
assignments). -/
theorem c4_target_values (c : BTCtx) (ob pc : Idx4 → ℕ → Q) (nC : ℕ) (t : ℕ)
    (ht : t < c.ts.length)
    (huniq : ∀ u, u < c.ts.length → u ≠ t → c.slot u ≠ c.slot t)
    (k : ℤ) (q : Idx4) :
    (buildTargets c ob pc nC).tx (c.slot t) = c.gx t - ((⌊c.gx t⌋ : ℤ) : Q) ∧
    (buildTargets c ob pc nC).ty (c.slot t) = c.gy t - ((⌊c.gy t⌋ : ℤ) : Q) ∧
    (buildTargets c ob pc nC).tw (c.slot t)
      = c.P.log (c.gw t / (c.anchors.getD (c.best t) defAnchor).w + epsLog) ∧
    (buildTargets c ob pc nC).th (c.slot t)
      = c.P.log (c.gh t / (c.anchors.getD (c.best t) defAnchor).h + epsLog) ∧
    (buildTargets c ob pc nC).tim (c.slot t) = (c.row t).im ∧
    (buildTargets c ob pc nC).tre (c.slot t) = (c.row t).re ∧
    (buildTargets c ob pc nC).tcls (c.slot t, k) = (if k = c.lbl t then 1 else 0) ∧
    (buildTargets c ob pc nC).tconf q
      = (if (buildTargets c ob pc nC).obj_mask q then 1 else 0) := by
  rw [buildTargets_eq_pos]
  have hlast : ∀ u, t < u → u < c.ts.length → c.slot u ≠ c.slot t :=
    fun u hu hul => huniq u hul (by omega)
  refine ⟨scatter_last _ _ _ _ t ht hlast, scatter_last _ _ _ _ t ht hlast,
    scatter_last _ _ _ _ t ht hlast, scatter_last _ _ _ _ t ht hlast,
    scatter_last _ _ _ _ t ht hlast, scatter_last _ _ _ _ t ht hlast, ?_, rfl⟩
  by_cases hk : k = c.lbl t
  · rw [if_pos hk]
    have hl2 : ∀ u, t < u → u < c.ts.length →
        (c.slot u, c.lbl u) ≠ (c.slot t, c.lbl t) :=
      fun u hu hul hpair => hlast u hu hul (congrArg Prod.fst hpair)
    have hv := scatter_last (fun _ => (0 : Q)) (fun u => (c.slot u, c.lbl u))
      (fun _ => 1) c.ts.length t ht hl2
    rw [hk]
    exact hv
  · rw [if_neg hk]
    apply scatter_untouched
    intro u hu hpair
    by_cases hut : u = t
    · subst hut
      exact hk (congrArg Prod.snd hpair).symm
    · exact huniq u hu hut (congrArg Prod.fst hpair)

/-- Witness for C4 at the demo context (a single box, so it is the unique
writer of its slot). -/
theorem c4_target_values_witness :
    (buildTargets demoCtx ob0 pc0 2).tx (demoCtx.slot 0)
        = demoCtx.gx 0 - ((⌊demoCtx.gx 0⌋ : ℤ) : Q) ∧
    (buildTargets demoCtx ob0 pc0 2).ty (demoCtx.slot 0)
        = demoCtx.gy 0 - ((⌊demoCtx.gy 0⌋ : ℤ) : Q) ∧
    (buildTargets demoCtx ob0 pc0 2).tw (demoCtx.slot 0)
        = demoCtx.P.log (demoCtx.gw 0
            / (demoCtx.anchors.getD (demoCtx.best 0) defAnchor).w + epsLog) ∧
    (buildTargets demoCtx ob0 pc0 2).th (demoCtx.slot 0)
        = demoCtx.P.log (demoCtx.gh 0
            / (demoCtx.anchors.getD (demoCtx.best 0) defAnchor).h + epsLog) ∧
    (buildTargets demoCtx ob0 pc0 2).tim (demoCtx.slot 0) = (demoCtx.row 0).im ∧
    (buildTargets demoCtx ob0 pc0 2).tre (demoCtx.slot 0) = (demoCtx.row 0).re ∧
    (buildTargets demoCtx ob0 pc0 2).tcls (demoCtx.slot 0, 0)
        = (if (0 : ℤ) = demoCtx.lbl 0 then 1 else 0) ∧
    (buildTargets demoCtx ob0 pc0 2).tconf (0, 0, 0, 0)
        = (if (buildTargets demoCtx ob0 pc0 2).obj_mask (0, 0, 0, 0) then 1 else 0) :=
  c4_target_values demoCtx ob0 pc0 2 0 (by decide)
    (fun u hu hne => absurd (Nat.lt_one_iff.mp hu) hne) 0 (0, 0, 0, 0)

/-! ## Claim C7: slot collisions -/

/-- Claim C7 as stated is refuted at a concrete input: two ground-truth
boxes with labels 0 and 1 collide on the same (batch, anchor, row, col)
slot, yet the final one-hot class tensor still has a 1 at the earlier
box's label 0 — the later box's one-hot vector has 0 there, so the final
class target does not equal the later box's values. -/
theorem c7_collision_counterexample :
    demoCollCtx.slot 0 = demoCollCtx.slot 1 ∧
    demoCollCtx.lbl 0 = 0 ∧ demoCollCtx.lbl 1 = 1 ∧
    (buildTargets demoCollCtx ob0 pc0 2).tcls (demoCollCtx.slot 1, 0) = 1 := by
  have hslot : demoCollCtx.slot 0 = demoCollCtx.slot 1 := by
    simp [BTCtx.slot, BTCtx.bIdx, BTCtx.gi, BTCtx.gj, BTCtx.gx, BTCtx.gy,
      BTCtx.best, BTCtx.iou, BTCtx.row, demoCollCtx, demoPrims, truncQ,
      argmaxFirst]
  have hl0 : demoCollCtx.lbl 0 = 0 := by
    simp [BTCtx.lbl, BTCtx.row, demoCollCtx, truncQ]
  have hl1 : demoCollCtx.lbl 1 = 1 := by
    simp [BTCtx.lbl, BTCtx.row, demoCollCtx, truncQ]
  refine ⟨hslot, hl0, hl1, ?_⟩
  rw [buildTargets_eq_pos]
  show scatter (fun _ => 0) (fun t => (demoCollCtx.slot t, demoCollCtx.lbl t))
      (fun _ => (1 : Q)) demoCollCtx.ts.length (demoCollCtx.slot 1, 0) = 1
  have hlen : demoCollCtx.ts.length = 2 := rfl
  rw [hlen]
  show upd (upd (fun _ => 0) (demoCollCtx.slot 0, demoCollCtx.lbl 0) 1)
      (demoCollCtx.slot 1, demoCollCtx.lbl 1) 1 (demoCollCtx.slot 1, 0) = 1
  rw [upd, upd]
  rw [if_neg (by simp [hl1]), if_pos (by simp [hslot, hl0])]

/-- Claim C7 amended: at a collision slot the final regression targets
(tx, ty, tw, th, tim, tre), the classification-correctness value and the
IoU score equal the later box's values (last write wins) and object_mask
is true there, but the one-hot class tensor keeps a 1 at every colliding
box's label (the earlier box's bit is not cleared), so it equals the later
box's one-hot only when the labels agree. -/
theorem c7_collision_amended (c : BTCtx) (ob pc : Idx4 → ℕ → Q) (nC : ℕ)
    (t₁ t₂ : ℕ) (h12 : t₁ < t₂) (ht₂ : t₂ < c.ts.length)
    (hcoll : c.slot t₁ = c.slot t₂)
    (hlast : ∀ u, t₂ < u → u < c.ts.length → c.slot u ≠ c.slot t₂) :
    (buildTargets c ob pc nC).tx (c.slot t₂) = c.gx t₂ - ((⌊c.gx t₂⌋ : ℤ) : Q) ∧
    (buildTargets c ob pc nC).ty (c.slot t₂) = c.gy t₂ - ((⌊c.gy t₂⌋ : ℤ) : Q) ∧
    (buildTargets c ob pc nC).tw (c.slot t₂)
      = c.P.log (c.gw t₂ / (c.anchors.getD (c.best t₂) defAnchor).w + epsLog) ∧
    (buildTargets c ob pc nC).th (c.slot t₂)
      = c.P.log (c.gh t₂ / (c.anchors.getD (c.best t₂) defAnchor).h + epsLog) ∧
    (buildTargets c ob pc nC).tim (c.slot t₂) = (c.row t₂).im ∧
    (buildTargets c ob pc nC).tre (c.slot t₂) = (c.row t₂).re ∧
    (buildTargets c ob pc nC).class_mask (c.slot t₂)
      = (if ((argmaxFirst (fun k => pc (c.slot t₂) k) nC : ℕ) : ℤ) = c.lbl t₂
          then 1 else 0) ∧
    (buildTargets c ob pc nC).iou_scores (c.slot t₂)
      = c.P.iouPred (box6At ob (c.slot t₂)) (c.tbox t₂) c.nG ∧
    (buildTargets c ob pc nC).obj_mask (c.slot t₂) = true ∧
    (buildTargets c ob pc nC).tcls (c.slot t₂, c.lbl t₁) = 1 ∧
    (buildTargets c ob pc nC).tcls (c.slot t₂, c.lbl t₂) = 1 := by
  rw [buildTargets_eq_pos]
  refine ⟨scatter_last _ _ _ _ t₂ ht₂ hlast, scatter_last _ _ _ _ t₂ ht₂ hlast,
    scatter_last _ _ _ _ t₂ ht₂ hlast, scatter_last _ _ _ _ t₂ ht₂ hlast,
    scatter_last _ _ _ _ t₂ ht₂ hlast, scatter_last _ _ _ _ t₂ ht₂ hlast,
    scatter_last _ _ _ _ t₂ ht₂ hlast, scatter_last _ _ _ _ t₂ ht₂ hlast,
    scatter_const_hit _ _ _ _ _ ⟨t₂, ht₂, rfl⟩,
    scatter_const_hit _ _ _ _ _ ⟨t₁, by omega, by rw [hcoll]⟩,
    scatter_const_hit _ _ _ _ _ ⟨t₂, ht₂, rfl⟩⟩

/-- Witness for the amended C7 at the two-box collision context. -/
theorem c7_collision_amended_witness :
    ((0 : ℕ) < 1 ∧ (1 : ℕ) < demoCollCtx.ts.length ∧
      demoCollCtx.slot 0 = demoCollCtx.slot 1) ∧
    ((buildTargets demoCollCtx ob0 pc0 2).tx (demoCollCtx.slot 1)
        = demoCollCtx.gx 1 - ((⌊demoCollCtx.gx 1⌋ : ℤ) : Q) ∧
      (buildTargets demoCollCtx ob0 pc0 2).ty (demoCollCtx.slot 1)
        = demoCollCtx.gy 1 - ((⌊demoCollCtx.gy 1⌋ : ℤ) : Q) ∧
      (buildTargets demoCollCtx ob0 pc0 2).tw (demoCollCtx.slot 1)
        = demoCollCtx.P.log (demoCollCtx.gw 1
            / (demoCollCtx.anchors.getD (demoCollCtx.best 1) defAnchor).w + epsLog) ∧
      (buildTargets demoCollCtx ob0 pc0 2).th (demoCollCtx.slot 1)
        = demoCollCtx.P.log (demoCollCtx.gh 1
            / (demoCollCtx.anchors.getD (demoCollCtx.best 1) defAnchor).h + epsLog) ∧
      (buildTargets demoCollCtx ob0 pc0 2).tim (demoCollCtx.slot 1)
        = (demoCollCtx.row 1).im ∧
      (buildTargets demoCollCtx ob0 pc0 2).tre (demoCollCtx.slot 1)
        = (demoCollCtx.row 1).re ∧
      (buildTargets demoCollCtx ob0 pc0 2).class_mask (demoCollCtx.slot 1)
        = (if ((argmaxFirst (fun k => pc0 (demoCollCtx.slot 1) k) 2 : ℕ) : ℤ)
              = demoCollCtx.lbl 1 then 1 else 0) ∧
      (buildTargets demoCollCtx ob0 pc0 2).iou_scores (demoCollCtx.slot 1)
        = demoCollCtx.P.iouPred (box6At ob0 (demoCollCtx.slot 1))
            (demoCollCtx.tbox 1) demoCollCtx.nG ∧
      (buildTargets demoCollCtx ob0 pc0 2).obj_mask (demoCollCtx.slot 1) = true ∧
      (buildTargets demoCollCtx ob0 pc0 2).tcls (demoCollCtx.slot 1, demoCollCtx.lbl 0) = 1 ∧
      (buildTargets demoCollCtx ob0 pc0 2).tcls (demoCollCtx.slot 1, demoCollCtx.lbl 1) = 1) :=
  ⟨⟨by omega, by decide,
      by simp [BTCtx.slot, BTCtx.bIdx, BTCtx.gi, BTCtx.gj, BTCtx.gx, BTCtx.gy,
        BTCtx.best, BTCtx.iou, BTCtx.row, demoCollCtx, demoPrims, truncQ,
        argmaxFirst]⟩,
    c7_collision_amended demoCollCtx ob0 pc0 2 0 1 (by omega) (by decide)
      (by simp [BTCtx.slot, BTCtx.bIdx, BTCtx.gi, BTCtx.gj, BTCtx.gx, BTCtx.gy,
        BTCtx.best, BTCtx.iou, BTCtx.row, demoCollCtx, demoPrims, truncQ,
        argmaxFirst])
      (fun u hu hul => absurd hul
        (by have h2 : demoCollCtx.ts.length = 2 := rfl
            omega))⟩

/-! ## Claim C8: index bounds -/

/-- Claim C8 as stated is refuted at the boundary of the permitted range:
the data model allows center coordinates in [0,1], but at center_x = 1 on
a 2×2 grid the computed column index is trunc(1·2) = 2, which is not
strictly less than the grid size (the scatter write would be out of
bounds; PyTorch raises an index error). -/
theorem c8_center_one_counterexample :
    (0 ≤ (demoEdgeCtx.row 0).x ∧ (demoEdgeCtx.row 0).x ≤ 1 ∧
      0 ≤ (demoEdgeCtx.row 0).y ∧ (demoEdgeCtx.row 0).y ≤ 1) ∧
    demoEdgeCtx.gi 0 = 2 ∧ ¬ demoEdgeCtx.gi 0 < (demoEdgeCtx.nG : ℤ) := by
  have hgi : demoEdgeCtx.gi 0 = 2 := by
    simp [BTCtx.gi, BTCtx.gx, BTCtx.row, demoEdgeCtx, truncQ]
  refine ⟨⟨?_, ?_, ?_, ?_⟩, hgi, ?_⟩
  · simp [BTCtx.row, demoEdgeCtx]
  · simp [BTCtx.row, demoEdgeCtx]
  · norm_num [BTCtx.row, demoEdgeCtx]
  · norm_num [BTCtx.row, demoEdgeCtx]
  · rw [hgi]
    decide

/-- Claim C8 amended: for normalized centers in [0,1) (half-open, not
closed) and a positive grid size, the computed row and column indices are
nonnegative and strictly less than the grid size, so every scatter write
into the target tensors is in bounds. -/
theorem c8_inbounds_amended (c : BTCtx) (t : ℕ) (hg : 0 < c.nG)
    (hx0 : 0 ≤ (c.row t).x) (hx1 : (c.row t).x < 1)
    (hy0 : 0 ≤ (c.row t).y) (hy1 : (c.row t).y < 1) :
    0 ≤ c.gi t ∧ c.gi t < (c.nG : ℤ) ∧ 0 ≤ c.gj t ∧ c.gj t < (c.nG : ℤ) := by
  have hgQ : (0 : Q) < (c.nG : Q) := by exact_mod_cast hg
  have key : ∀ v : Q, 0 ≤ v → v < 1 →
      0 ≤ truncQ (v * (c.nG : Q)) ∧ truncQ (v * (c.nG : Q)) < (c.nG : ℤ) := by
    intro v hv0 hv1
    have hnn : 0 ≤ v * (c.nG : Q) := mul_nonneg hv0 (le_of_lt hgQ)
    rw [truncQ_of_nonneg _ hnn]
    constructor
    · exact Int.floor_nonneg.mpr hnn
    · rw [Int.floor_lt]
      push_cast
      calc v * (c.nG : Q) < 1 * (c.nG : Q) := mul_lt_mul_of_pos_right hv1 hgQ
        _ = (c.nG : Q) := one_mul _
  exact ⟨(key _ hx0 hx1).1, (key _ hx0 hx1).2, (key _ hy0 hy1).1, (key _ hy0 hy1).2⟩

/-- Witness for the amended C8 at the demo context (centers 1/4 on a 2×2
grid). -/
theorem c8_inbounds_amended_witness :
    ((0 : ℕ) < demoCtx.nG ∧ 0 ≤ (demoCtx.row 0).x ∧ (demoCtx.row 0).x < 1 ∧
      0 ≤ (demoCtx.row 0).y ∧ (demoCtx.row 0).y < 1) ∧
    (0 ≤ demoCtx.gi 0 ∧ demoCtx.gi 0 < (demoCtx.nG : ℤ) ∧
      0 ≤ demoCtx.gj 0 ∧ demoCtx.gj 0 < (demoCtx.nG : ℤ)) :=
  ⟨⟨by decide, by norm_num [BTCtx.row, demoCtx], by norm_num [BTCtx.row, demoCtx],
      by norm_num [BTCtx.row, demoCtx], by norm_num [BTCtx.row, demoCtx]⟩,
    c8_inbounds_amended demoCtx 0 (by decide)
      (by norm_num [BTCtx.row, demoCtx]) (by norm_num [BTCtx.row, demoCtx])
      (by norm_num [BTCtx.row, demoCtx]) (by norm_num [BTCtx.row, demoCtx])⟩

/-- Witness for C9: a repeated call with the already-cached grid size
leaves the returned state equal to the old one apart from img_size. -/
theorem c9_geometry_cache_witness :
    (2 : ℕ) = (computeGridOffsets demoPrims demoState0 2).grid_size ∧
    (forward demoPrims (computeGridOffsets demoPrims demoState0 2)
        (fun _ _ _ _ => 0) 1 2 none 608).state
      = { computeGridOffsets demoPrims demoState0 2 with img_size := 608 } :=
  ⟨rfl, (c9_geometry_cache demoPrims (computeGridOffsets demoPrims demoState0 2)
      (fun _ _ _ _ => 0) 1 2 none 608).1 rfl⟩
